import Mathlib

/-!
Shallow embedding of the alpha-trend-backtest core engine
(src/core/atr.py, src/backtest/core/regime_classifier.py,
src/backtest/core/signal_engine.py, src/backtest/core/trade_manager.py,
src/backtest/core/data_loader.py, src/backtest/core/backtest_engine.py).

Prices and quantities are modelled as rationals; timestamps as epoch
seconds (Nat).  Python float division by zero raises ZeroDivisionError;
the one place the source divides without a guard (the R-multiple in
TradeManager.on_bar) is modelled with Option, none standing for the
raised exception.  Empty strings used as "unset" markers in the source
(exit_ts, exit_reason) are modelled as Option none.
-/

/-- One OHLCV bar as consumed by the engine loop. -/
structure Bar where
  ts : Nat
  o : ℚ
  h : ℚ
  l : ℚ
  c : ℚ
  deriving DecidableEq

/-! ## Volatility estimator: class ATR (src/core/atr.py) -/

/-- State of the ATR estimator: {period, ring of true ranges, previous
close, current smoothed value or none}.  The deque has maxlen = period;
for period ≥ 1 it is only appended to while it holds fewer than period
entries, so it never truncates and a plain list is faithful. -/
structure ATRState where
  period : Nat
  trs : List ℚ
  prev_close : Option ℚ
  atr : Option ℚ
  deriving DecidableEq

def ATRState.init (period : Nat) : ATRState :=
  { period := period, trs := [], prev_close := none, atr := none }

/-- ATR._tr: true range of a bar given the previous close (none on the
very first bar). -/
def trOf (c_prev : Option ℚ) (h l : ℚ) : ℚ :=
  match c_prev with
  | none => h - l
  | some pc => max (h - l) (max |h - pc| |l - pc|)

/-- ATR.update: returns the new state together with the value the call
returns (none = "not ready"). -/
def ATRState.update (s : ATRState) (_o h l c : ℚ) : ATRState × Option ℚ :=
  let tr := trOf s.prev_close h l
  match s.atr with
  | none =>
      let trs := s.trs ++ [tr]
      if trs.length = s.period then
        let a := trs.sum / (s.period : ℚ)
        ({ period := s.period, trs := trs, prev_close := some c, atr := some a }, some a)
      else
        ({ period := s.period, trs := trs, prev_close := some c, atr := none }, none)
  | some a =>
      let a' := (a * ((s.period : ℚ) - 1) + tr) / (s.period : ℚ)
      ({ period := s.period, trs := s.trs, prev_close := some c, atr := some a' }, some a')

/-- Fold ATR.update over a list of bars, keeping the final state. -/
def ATRState.runBars (s : ATRState) (bars : List Bar) : ATRState :=
  bars.foldl (fun st b => (st.update b.o b.h b.l b.c).1) s

/-! ## Regime classifier: class SlopeRegime (src/backtest/core/regime_classifier.py) -/

inductive Regime where
  | UP
  | DOWN
  | FLAT
  deriving DecidableEq

/-- Appending to a deque with maxlen: keep the last maxlen entries. -/
def pushMax (maxlen : Nat) (buf : List ℚ) (x : ℚ) : List ℚ :=
  let b := buf ++ [x]
  b.drop (b.length - maxlen)

structure SlopeRegimeState where
  n_short : Nat
  n_long : Nat
  buf_s : List ℚ
  buf_l : List ℚ
  regime : Regime
  deriving DecidableEq

def SlopeRegimeState.init (n_short n_long : Nat) : SlopeRegimeState :=
  { n_short := n_short, n_long := n_long, buf_s := [], buf_l := [], regime := .FLAT }

/-- SlopeRegime.update. -/
def SlopeRegimeState.update (s : SlopeRegimeState) (price : ℚ) :
    SlopeRegimeState × Regime :=
  let buf_s := pushMax s.n_short s.buf_s price
  let buf_l := pushMax s.n_long s.buf_l price
  if buf_l.length < s.n_long then
    ({ s with buf_s := buf_s, buf_l := buf_l, regime := .FLAT }, .FLAT)
  else
    let ma_s := buf_s.sum / (buf_s.length : ℚ)
    let ma_l := buf_l.sum / (buf_l.length : ℚ)
    let r : Regime := if ma_s > ma_l then .UP else if ma_s < ma_l then .DOWN else .FLAT
    ({ s with buf_s := buf_s, buf_l := buf_l, regime := r }, r)

/-! ## Signal generator: class PullbackResumption (src/backtest/core/signal_engine.py) -/

inductive Side where
  | LONG
  | SHORT
  deriving DecidableEq

structure PullbackResumptionState where
  lookback : Nat
  buf : List ℚ
  pullback_seen : Bool
  deriving DecidableEq

def PullbackResumptionState.init (ma_lookback : Nat) : PullbackResumptionState :=
  { lookback := ma_lookback, buf := [], pullback_seen := false }

/-- PullbackResumption.update_ma. -/
def PullbackResumptionState.update_ma (s : PullbackResumptionState) (price : ℚ) :
    PullbackResumptionState × Option ℚ :=
  let buf := pushMax s.lookback s.buf price
  if buf.length < s.lookback then
    ({ s with buf := buf }, none)
  else
    ({ s with buf := buf }, some (buf.sum / (buf.length : ℚ)))

/-- PullbackResumption.on_bar. -/
def PullbackResumptionState.on_bar (s : PullbackResumptionState) (price : ℚ)
    (regime : Regime) : PullbackResumptionState × Option Side :=
  let (s1, ma?) := s.update_ma price
  match ma?, regime with
  | none, _ => ({ s1 with pullback_seen := false }, none)
  | some _, .FLAT => ({ s1 with pullback_seen := false }, none)
  | some ma, .UP =>
      if price < ma then ({ s1 with pullback_seen := true }, none)
      else if s1.pullback_seen ∧ price ≥ ma then
        ({ s1 with pullback_seen := false }, some .LONG)
      else (s1, none)
  | some ma, .DOWN =>
      if price > ma then ({ s1 with pullback_seen := true }, none)
      else if s1.pullback_seen ∧ price ≤ ma then
        ({ s1 with pullback_seen := false }, some .SHORT)
      else (s1, none)

/-! ## Trade lifecycle: Trade, ExitParams, TradeManager (src/backtest/core/trade_manager.py) -/

inductive ExitReason where
  | SL
  | BE
  | TSL
  deriving DecidableEq

/-- dataclass Trade.  exit_ts = none and exit_reason = none model the
empty strings of the source; exit_reason none is falsy in the
`if t.exit_reason:` test of on_bar. -/
structure Trade where
  side : Side
  entry_ts : Nat
  entry_price : ℚ
  sl : ℚ
  tp : ℚ
  size : ℚ
  be_moved : Bool := false
  tsl_active : Bool := false
  tsl_step : ℚ := 0
  exit_ts : Option Nat := none
  exit_price : ℚ := 0
  exit_reason : Option ExitReason := none
  R : ℚ := 0
  deriving DecidableEq

structure ExitParams where
  atr_mult_sl : ℚ := 15
  atr_mult_tp : ℚ := 60
  breakeven_progress : ℚ := 1/2
  tsl_step_atr_mult : ℚ := 3
  deriving DecidableEq

structure TradeManager where
  p : ExitParams
  active : Option Trade
  deriving DecidableEq

def TradeManager.init (p : ExitParams) : TradeManager :=
  { p := p, active := none }

/-- TradeManager.open (open is a Lean keyword, hence the name).  The
source unconditionally overwrites self.active with the new Trade and
returns it. -/
def TradeManager.openTrade (tm : TradeManager) (ts : Nat) (side : Side)
    (price atr qty : ℚ) : TradeManager × Trade :=
  let sl_dist := tm.p.atr_mult_sl * atr
  let tp_dist := tm.p.atr_mult_tp * atr
  let sl := match side with
    | .LONG => price - sl_dist
    | .SHORT => price + sl_dist
  let tp := match side with
    | .LONG => price + tp_dist
    | .SHORT => price - tp_dist
  let t : Trade :=
    { side := side, entry_ts := ts, entry_price := price, sl := sl, tp := tp, size := qty }
  ({ tm with active := some t }, t)

/-- TradeManager._progress. -/
def TradeManager.progress (t : Trade) (price : ℚ) : ℚ :=
  match t.side with
  | .LONG =>
      if t.tp - t.entry_price > 0 then (price - t.entry_price) / (t.tp - t.entry_price) else 0
  | .SHORT =>
      if t.entry_price - t.tp > 0 then (t.entry_price - price) / (t.entry_price - t.tp) else 0

/-- TradeManager.on_bar.  The result is none exactly when the source
raises ZeroDivisionError (R-multiple division by |atr_mult_sl * atr| = 0);
otherwise some (new manager state, completed trade or none). -/
def TradeManager.on_bar (tm : TradeManager) (ts : Nat) (high low close atr : ℚ) :
    Option (TradeManager × Option Trade) :=
  match tm.active with
  | none => some (tm, none)
  | some t0 =>
    -- Exit checks — SL, then TP (using existing stops before updates)
    let t :=
      match t0.side with
      | .LONG =>
          if low ≤ t0.sl then
            { t0 with exit_ts := some ts, exit_price := t0.sl,
                      exit_reason := some (if t0.tsl_active then .TSL else .SL) }
          else if high ≥ t0.tp then
            { t0 with exit_ts := some ts, exit_price := t0.tp, exit_reason := some .TSL }
          else t0
      | .SHORT =>
          if high ≥ t0.sl then
            { t0 with exit_ts := some ts, exit_price := t0.sl,
                      exit_reason := some (if t0.tsl_active then .TSL else .SL) }
          else if low ≤ t0.tp then
            { t0 with exit_ts := some ts, exit_price := t0.tp, exit_reason := some .TSL }
          else t0
    if t.exit_reason.isSome then
      let sl_dist_abs := |tm.p.atr_mult_sl * atr|
      if sl_dist_abs = 0 then
        none
      else
        let R := match t.side with
          | .LONG => (t.exit_price - t.entry_price) / sl_dist_abs
          | .SHORT => (t.entry_price - t.exit_price) / sl_dist_abs
        some ({ tm with active := none }, some { t with R := R })
    else
      -- TSL stepping (simple step every tsl_step_atr_mult ATRs)
      let t :=
        if t.be_moved then
          match t.side with
          | .LONG =>
              let target := t.entry_price + tm.p.tsl_step_atr_mult * atr
              if close ≥ target then
                { t with tsl_active := true,
                         sl := max t.sl (close - tm.p.tsl_step_atr_mult * atr) }
              else t
          | .SHORT =>
              let target := t.entry_price - tm.p.tsl_step_atr_mult * atr
              if close ≤ target then
                { t with tsl_active := true,
                         sl := min t.sl (close + tm.p.tsl_step_atr_mult * atr) }
              else t
        else t
      -- Breakeven move
      let t :=
        if ¬ t.be_moved then
          if TradeManager.progress t close ≥ tm.p.breakeven_progress then
            { t with be_moved := true, sl := t.entry_price }
          else t
        else t
      some ({ tm with active := some t }, none)

/-! ## Simulation loop: run_symbol (src/backtest/core/backtest_engine.py)

Only the simulation state is modelled (ATR, regime, signal, trade
manager, collected trades, and the loop variables ts / c used by the
forced close); timeline rows, file I/O and the progress bar are output
plumbing outside every claim. -/

structure EngineState where
  atr : ATRState
  regime : SlopeRegimeState
  signal : PullbackResumptionState
  tm : TradeManager
  trades : List Trade
  lastTs : Option Nat
  lastClose : ℚ
  deriving DecidableEq

def EngineState.init (atr_period n_short n_long ma_lookback : Nat)
    (p : ExitParams) : EngineState :=
  { atr := ATRState.init atr_period
    regime := SlopeRegimeState.init n_short n_long
    signal := PullbackResumptionState.init ma_lookback
    tm := TradeManager.init p
    trades := []
    lastTs := none
    lastClose := 0 }

/-- One iteration of the bar loop in run_symbol.  risk_usd and sl_mult
are the loop-invariant config values read next to the components.
Entries are generated only when flat and the ATR is ready (cur_atr is
not None); otherwise the trade manager advances (with `cur_atr or 0.0`).
none propagates a ZeroDivisionError from TradeManager.on_bar. -/
def runBar (risk_usd sl_mult : ℚ) (s : EngineState) (b : Bar) : Option EngineState :=
  let (atrSt, cur_atr) := s.atr.update b.o b.h b.l b.c
  let (regSt, reg) := s.regime.update b.c
  match s.tm.active, cur_atr with
  | none, some a =>
      let (sigSt, sig) := s.signal.on_bar b.c reg
      let s' := { s with atr := atrSt, regime := regSt, signal := sigSt,
                         lastTs := some b.ts, lastClose := b.c }
      match sig with
      | some side =>
          if reg = .UP ∨ reg = .DOWN then
            let sl_dist := a * sl_mult
            let qty := if sl_dist > 0 ∧ b.c > 0 then risk_usd / sl_dist / b.c else 0
            some { s' with tm := (s'.tm.openTrade b.ts side b.c a qty).1 }
          else some s'
      | none => some s'
  | _, _ =>
      match s.tm.on_bar b.ts b.h b.l b.c (cur_atr.getD 0) with
      | none => none
      | some (tm', done) =>
          some { s with atr := atrSt, regime := regSt, tm := tm',
                        trades := s.trades ++ (match done with | some t => [t] | none => []),
                        lastTs := some b.ts, lastClose := b.c }

/-- The whole bar loop. -/
def runBars (risk_usd sl_mult : ℚ) (s : EngineState) : List Bar → Option EngineState
  | [] => some s
  | b :: bs =>
      match runBar risk_usd sl_mult s b with
      | none => none
      | some s' => runBars risk_usd sl_mult s' bs

/-- The forced close after the loop: if a trade is still open, close it
at the last seen timestamp/close with reason BE and R = 0 and emit it. -/
def forcedClose (s : EngineState) : EngineState :=
  match s.tm.active with
  | none => s
  | some t =>
      let t' := { t with exit_ts := s.lastTs, exit_price := s.lastClose,
                         exit_reason := some .BE, R := 0 }
      { s with trades := s.trades ++ [t'], tm := { s.tm with active := none } }

/-- run_symbol restricted to its simulation content: loop then forced close. -/
def runSymbol (risk_usd sl_mult : ℚ) (s : EngineState) (bars : List Bar) :
    Option EngineState :=
  match runBars risk_usd sl_mult s bars with
  | none => none
  | some s' => some (forcedClose s')

/-- Number of open trades held by the manager (the active slot). -/
def EngineState.openCount (s : EngineState) : Nat :=
  match s.tm.active with
  | none => 0
  | some _ => 1

/-! ## Tick aggregation: _iter_ticks_aggregated_1m (src/backtest/core/data_loader.py)

Rows are modelled after alias resolution and numeric parsing: a field is
none when the column is absent/blank/unparsable, in which case the
source skips the row (quantity instead defaults to 0). -/

structure TickRow where
  ts? : Option Nat
  price? : Option ℚ
  qty? : Option ℚ
  deriving DecidableEq

/-- A fully valid tick. -/
structure Tick where
  ts : Nat
  price : ℚ
  qty : ℚ
  deriving DecidableEq

/-- _minute_floor. -/
def minuteFloor (ep : Nat) : Nat := ep - ep % 60

def Tick.bucket (t : Tick) : Nat := minuteFloor t.ts

/-- An aggregated 1-minute bar; ts is the minute bucket (the source
renders it with _iso_minute, pure formatting). -/
structure MBar where
  ts : Nat
  o : ℚ
  h : ℚ
  l : ℚ
  c : ℚ
  v : ℚ
  deriving DecidableEq

/-- The in-progress accumulator of _iter_ticks_aggregated_1m. -/
structure TickAcc where
  cur_min : Nat
  o : ℚ
  h : ℚ
  l : ℚ
  c : ℚ
  vol : ℚ
  deriving DecidableEq

def TickAcc.toBar (a : TickAcc) : MBar :=
  { ts := a.cur_min, o := a.o, h := a.h, l := a.l, c := a.c, v := a.vol }

/-- Start a new accumulator from a tick. -/
def TickAcc.ofTick (t : Tick) : TickAcc :=
  { cur_min := t.bucket, o := t.price, h := t.price, l := t.price, c := t.price, vol := t.qty }

/-- Same-minute update: c = last seen, h = max, l = min, vol = sum. -/
def TickAcc.absorb (a : TickAcc) (t : Tick) : TickAcc :=
  { a with c := t.price,
           h := if t.price > a.h then t.price else a.h,
           l := if t.price < a.l then t.price else a.l,
           vol := a.vol + t.qty }

/-- The loop of _iter_ticks_aggregated_1m on valid ticks. -/
def aggVal : List Tick → Option TickAcc → List MBar
  | [], none => []
  | [], some a => [a.toBar]
  | t :: ts, none => aggVal ts (some (TickAcc.ofTick t))
  | t :: ts, some a =>
      if t.bucket ≠ a.cur_min then
        a.toBar :: aggVal ts (some (TickAcc.ofTick t))
      else
        aggVal ts (some (a.absorb t))

/-- Row filtering of _iter_ticks_aggregated_1m: rows lacking a parseable
timestamp or price are skipped; a missing/bad quantity defaults to 0. -/
def validTicks : List TickRow → List Tick
  | [] => []
  | r :: rs =>
      match r.ts?, r.price? with
      | some ep, some p => { ts := ep, price := p, qty := r.qty?.getD 0 } :: validTicks rs
      | _, _ => validTicks rs

/-- The full loop of _iter_ticks_aggregated_1m, with the source's
inline skipping: rows lacking a timestamp or price are skipped, a
missing quantity defaults to 0. -/
def aggRows : List TickRow → Option TickAcc → List MBar
  | [], none => []
  | [], some a => [a.toBar]
  | r :: rs, acc =>
      match r.ts? with
      | none => aggRows rs acc
      | some ep =>
          match r.price? with
          | none => aggRows rs acc
          | some p =>
              let q := r.qty?.getD 0
              let t : Tick := { ts := ep, price := p, qty := q }
              match acc with
              | none => aggRows rs (some (TickAcc.ofTick t))
              | some a =>
                  if t.bucket ≠ a.cur_min then
                    a.toBar :: aggRows rs (some (TickAcc.ofTick t))
                  else
                    aggRows rs (some (a.absorb t))

/-- _iter_ticks_aggregated_1m on a list of rows. -/
def aggTicks (rows : List TickRow) : List MBar :=
  aggRows rows none

/-! ## Spec-side definitions (refinement targets, written from the spec's wording) -/

/-- True-range sequence of a bar list, threading the previous close
(none before the first bar). -/
def trListFrom : Option ℚ → List Bar → List ℚ
  | _, [] => []
  | pc, b :: bs => trOf pc b.h b.l :: trListFrom (some b.c) bs

def trList (bars : List Bar) : List ℚ := trListFrom none bars

/-- The close of the last bar of the list, defaulting to the argument. -/
def lastCloseFrom : Option ℚ → List Bar → Option ℚ
  | pc, [] => pc
  | _, b :: bs => lastCloseFrom (some b.c) bs

/-- Spec-side ATR value after a sequence of true ranges (spec §4.2 /
claim C5 wording): "not ready" for fewer than period values; the mean of
the first period values at warm-up; then Wilder's recursion
(atr * (period-1) + tr) / period for each later value. -/
def wilderSpec (P : Nat) (trs : List ℚ) : Option ℚ :=
  if trs.length < P then none
  else
    some ((trs.drop P).foldl (fun a tr => (a * ((P : ℚ) - 1) + tr) / (P : ℚ))
      ((trs.take P).sum / (P : ℚ)))

/-- Spec-side bar of one run of same-bucket ticks (claim C8 wording):
open = first price seen, high = max, low = min, close = last price seen,
volume = sum of quantities. -/
def barOfRun (t : Tick) (run : List Tick) : MBar :=
  { ts := t.bucket
    o := t.price
    h := (run.map Tick.price).foldl max t.price
    l := (run.map Tick.price).foldl min t.price
    c := (run.map Tick.price).foldl (fun _ x => x) t.price
    v := t.qty + (run.map Tick.qty).sum }

/-- Spec-side aggregation (claim C8 wording): group consecutive ticks by
floored minute bucket, one bar per run, a new bar on each bucket change,
the final in-progress run emitted at end of input. -/
def specAgg : List Tick → List MBar
  | [] => []
  | t :: ts =>
      barOfRun t (ts.takeWhile (fun x => x.bucket == t.bucket)) ::
        specAgg (ts.dropWhile (fun x => x.bucket == t.bucket))
termination_by l => l.length
decreasing_by
  simp only [List.length_cons]
  exact Nat.lt_succ_of_le ((List.dropWhile_sublist _).length_le)

/-! ## Concrete data used by counterexamples, scenarios and witnesses -/

/-- A degenerate bar with o = h = l = c = p (interbar movement still
produces nonzero true ranges). -/
def flatBar (ts : Nat) (p : ℚ) : Bar := { ts := ts, o := p, h := p, l := p, c := p }

/-- Engine state with atr_period = 1, n_short = 1, n_long = 2,
ma_lookback = 3 and default exit parameters; risk_usd = 1 and
sl_mult = 15 are passed alongside at call sites. -/
def cfgInit : EngineState := EngineState.init 1 1 2 3 {}

def defaultTrade : Trade :=
  { side := .LONG, entry_ts := 0, entry_price := 0, sl := 0, tp := 0, size := 0 }

/-- Downtrending negative-price bars whose fourth bar fires a LONG
pullback-resumption signal at a negative close. -/
def c3bars3 : List Bar := [flatBar 0 (-10), flatBar 60 (-14), flatBar 120 (-13)]

def c3b4 : Bar := flatBar 180 (-11)

def c3s3 : EngineState := (runBars 1 15 cfgInit c3bars3).getD cfgInit

def c3s4 : EngineState := (runBar 1 15 c3s3 c3b4).getD cfgInit

/-- Bars that open a LONG at close 100 on the fourth bar and end the
stream at close 105 with the trade still open. -/
def c9bars : List Bar :=
  [flatBar 0 101, flatBar 60 97, flatBar 120 98, flatBar 180 100, flatBar 240 105]

def c9bars4 : List Bar := [flatBar 0 101, flatBar 60 97, flatBar 120 98, flatBar 180 100]

def c4s4 : EngineState := (runBars 1 15 cfgInit c9bars4).getD cfgInit

def c4b5 : Bar := flatBar 240 105

def c4s5 : EngineState := (runBar 1 15 c4s4 c4b5).getD cfgInit

/-- A fresh engine with atr_period = 2: on its first bar the manager is
flat and the ATR is not ready. -/
def c4warm : EngineState := EngineState.init 2 1 2 3 {}

def c4wb : Bar := flatBar 0 101

def c4warms1 : EngineState := (runBar 1 15 c4warm c4wb).getD c4warm

def c9loopEnd : EngineState := (runBars 1 15 cfgInit c9bars).getD cfgInit

def c9openTrade : Trade := c9loopEnd.tm.active.getD defaultTrade

def c9sym : EngineState := (runSymbol 1 15 cfgInit c9bars).getD cfgInit

/-- The tick rows of the spec's aggregation scenario: 10:00:05 price 100
qty 1, 10:00:30 price 102 qty 2, 10:01:10 price 101 qty 1 (epoch seconds
within the day). -/
def c8rows : List TickRow :=
  [{ ts? := some 36005, price? := some 100, qty? := some 1 },
   { ts? := some 36030, price? := some 102, qty? := some 2 },
   { ts? := some 36070, price? := some 101, qty? := some 1 }]

/-- A manager holding an open LONG trade (entry 100, sl 70, tp 220). -/
def c2trade : Trade :=
  { side := .LONG, entry_ts := 0, entry_price := 100, sl := 70, tp := 220, size := 1 }

def c2tm : TradeManager := { p := {}, active := some c2trade }

def w6trade : Trade :=
  { side := .LONG, entry_ts := 0, entry_price := 100, sl := 70, tp := 220, size := 1 }

def w6tm : TradeManager := { p := {}, active := some w6trade }

/-- An open LONG after the breakeven move (sl at entry), with the exit
parameters of the repository's trailing-stop test. -/
def w7trade : Trade :=
  { side := .LONG, entry_ts := 0, entry_price := 100, sl := 100, tp := 140, size := 1,
    be_moved := true }

def w7tm : TradeManager :=
  { p := { atr_mult_sl := 10, atr_mult_tp := 20, breakeven_progress := 1/2,
           tsl_step_atr_mult := 2 },
    active := some w7trade }

def w7res : TradeManager × Option Trade := (w7tm.on_bar 1 130 120 125 2).getD (w7tm, none)

def w7t : Trade := w7res.1.active.getD defaultTrade

def w10trade : Trade :=
  { side := .LONG, entry_ts := 0, entry_price := 100, sl := 70, tp := 220, size := 1 }

def w10tm : TradeManager := { p := {}, active := some w10trade }

/-- Does this bar trigger the exit check for the open trade (with the
levels as they stand entering the bar)? -/
def triggersExit (t : Trade) (high low : ℚ) : Bool :=
  match t.side with
  | .LONG => low ≤ t.sl ∨ high ≥ t.tp
  | .SHORT => high ≥ t.sl ∨ low ≤ t.tp

/-! ## Helper lemmas -/

lemma EngineState.openCount_le_one (s : EngineState) : s.openCount ≤ 1 := by
  unfold EngineState.openCount
  split <;> simp

lemma forcedClose_active_none (s : EngineState) : (forcedClose s).tm.active = none := by
  unfold forcedClose
  split
  · assumption
  · rfl

/-- When the manager already holds a trade, the loop body only advances
the trade manager: the signal state is untouched and the trades list
extends by the completed trade, if any. -/
lemma runBar_open_case (risk slm : ℚ) (s : EngineState) (b : Bar) (t : Trade)
    (hA : s.tm.active = some t) :
    runBar risk slm s b =
      match s.tm.on_bar b.ts b.h b.l b.c (((s.atr.update b.o b.h b.l b.c).2).getD 0) with
      | none => none
      | some (tm', done) =>
          some { s with atr := (s.atr.update b.o b.h b.l b.c).1,
                        regime := (s.regime.update b.c).1, tm := tm',
                        trades := s.trades ++
                          (match done with | some u => [u] | none => []),
                        lastTs := some b.ts, lastClose := b.c } := by
  unfold runBar
  rw [hA]

/-! ## Claims -/

/-- C1: at most one open Trade exists per symbol at every point of a
simulation: the TradeManager's active slot is an Option (no Trade or
exactly one), every loop step and the forced close preserve the bound,
and opening puts exactly the new Trade in the slot. -/
theorem at_most_one_open_trade :
    (∀ tm : TradeManager, tm.active = none ∨ ∃ t, tm.active = some t) ∧
    (∀ s : EngineState, s.openCount ≤ 1) ∧
    (∀ (risk slm : ℚ) (s : EngineState) (b : Bar) (s' : EngineState),
      runBar risk slm s b = some s' → s'.openCount ≤ 1) ∧
    (∀ (tm : TradeManager) (ts : Nat) (side : Side) (price atr qty : ℚ),
      (TradeManager.openTrade tm ts side price atr qty).1.active =
        some (TradeManager.openTrade tm ts side price atr qty).2) ∧
    (∀ (risk slm : ℚ) (s : EngineState) (bars : List Bar) (s' : EngineState),
      runSymbol risk slm s bars = some s' → s'.openCount ≤ 1 ∧ s'.tm.active = none) := by
  refine ⟨?_, ?_, ?_, ?_, ?_⟩
  · intro tm
    cases h : tm.active with
    | none => exact Or.inl rfl
    | some t => exact Or.inr ⟨t, rfl⟩
  · exact EngineState.openCount_le_one
  · intro _ _ _ _ s' _
    exact EngineState.openCount_le_one s'
  · intro tm ts side price atr qty
    rfl
  · intro risk slm s bars s' h
    unfold runSymbol at h
    cases hr : runBars risk slm s bars with
    | none => rw [hr] at h; exact absurd h (by simp)
    | some s1 =>
        rw [hr] at h
        simp only [Option.some.injEq] at h
        subst h
        exact ⟨EngineState.openCount_le_one _, forcedClose_active_none s1⟩

def c1s1 : EngineState := (runBar 1 15 cfgInit (flatBar 0 101)).getD cfgInit

theorem at_most_one_open_trade_witness :
    runBar 1 15 cfgInit (flatBar 0 101) = some c1s1 ∧ c1s1.openCount ≤ 1 ∧
    runSymbol 1 15 cfgInit c9bars = some c9sym ∧ c9sym.tm.active = none := by
  refine ⟨by with_unfolding_all rfl, ?_, by with_unfolding_all rfl, ?_⟩
  · exact at_most_one_open_trade.2.2.1 1 15 cfgInit (flatBar 0 101) c1s1
      (by with_unfolding_all rfl)
  · exact (at_most_one_open_trade.2.2.2.2 1 15 cfgInit c9bars c9sym
      (by with_unfolding_all rfl)).2

/-- C2 counterexample: with a Trade already open, TradeManager.open does
not fail — it returns normally and the active slot afterwards holds the
new Trade, which differs from the one that was open. -/
theorem open_while_open_replaces_counterexample :
    c2tm.active = some c2trade ∧
    (c2tm.openTrade 1 Side.SHORT 50 2 1).1.active =
      some (c2tm.openTrade 1 Side.SHORT 50 2 1).2 ∧
    (c2tm.openTrade 1 Side.SHORT 50 2 1).2 ≠ c2trade := by
  refine ⟨rfl, rfl, ?_⟩
  with_unfolding_all decide

/-- C2 amended: calling open while a Trade is already open raises no
error; it silently replaces the active Trade with the newly created one
(the Simulation Loop avoids this by polling entries only while flat). -/
theorem open_never_fails_replaces (tm : TradeManager) (ts : Nat) (side : Side)
    (price atr qty : ℚ) (t0 : Trade) (h : tm.active = some t0) :
    (tm.openTrade ts side price atr qty).1.active =
      some (tm.openTrade ts side price atr qty).2 ∧
    (tm.openTrade ts side price atr qty).2.entry_ts = ts ∧
    (tm.openTrade ts side price atr qty).2.entry_price = price ∧
    (tm.openTrade ts side price atr qty).2.size = qty :=
  ⟨rfl, rfl, rfl, rfl⟩

theorem open_never_fails_replaces_witness :
    c2tm.active = some c2trade ∧
    (c2tm.openTrade 1 Side.SHORT 50 2 1).1.active =
      some (c2tm.openTrade 1 Side.SHORT 50 2 1).2 :=
  ⟨rfl, (open_never_fails_replaces c2tm 1 .SHORT 50 2 1 c2trade rfl).1⟩

/-- When the manager is flat and the ATR is not ready, the loop body
also takes the trade-manager branch. -/
lemma runBar_noatr_case (risk slm : ℚ) (s : EngineState) (b : Bar)
    (hA : s.tm.active = none)
    (hatr : (s.atr.update b.o b.h b.l b.c).2 = none) :
    runBar risk slm s b =
      match s.tm.on_bar b.ts b.h b.l b.c (((s.atr.update b.o b.h b.l b.c).2).getD 0) with
      | none => none
      | some (tm', done) =>
          some { s with atr := (s.atr.update b.o b.h b.l b.c).1,
                        regime := (s.regime.update b.c).1, tm := tm',
                        trades := s.trades ++
                          (match done with | some u => [u] | none => []),
                        lastTs := some b.ts, lastClose := b.c } := by
  unfold runBar
  rcases hu : s.atr.update b.o b.h b.l b.c with ⟨atrSt, cur⟩
  rw [hu] at hatr
  dsimp only at hatr
  subst hatr
  rw [hA]

set_option maxRecDepth 4000 in
/-- C4 counterexample: two reachable bars on which the Signal
Generator's state (and hence its moving-average window) is left
completely unchanged — a bar with an open trade, and a flat bar with
the ATR not yet ready; on both, appending the bar's close would have
changed the window. -/
theorem signal_window_frozen_counterexample :
    (runBars 1 15 cfgInit c9bars4 = some c4s4 ∧
      c4s4.tm.active.isSome = true ∧
      runBar 1 15 c4s4 c4b5 = some c4s5 ∧
      c4s5.signal = c4s4.signal ∧
      c4s4.signal.buf = [97, 98, 100] ∧
      pushMax c4s5.signal.lookback c4s5.signal.buf c4b5.c ≠ c4s5.signal.buf) ∧
    (c4warm.tm.active = none ∧
      (c4warm.atr.update c4wb.o c4wb.h c4wb.l c4wb.c).2 = none ∧
      runBar 1 15 c4warm c4wb = some c4warms1 ∧
      c4warms1.signal = c4warm.signal ∧
      pushMax c4warms1.signal.lookback c4warms1.signal.buf c4wb.c ≠ c4warms1.signal.buf) := by
  refine ⟨⟨by with_unfolding_all rfl, ?_, by with_unfolding_all rfl, ?_, ?_, ?_⟩,
    ⟨?_, ?_, by with_unfolding_all rfl, ?_, ?_⟩⟩ <;>
    with_unfolding_all decide

/-- C4 amended: the Simulation Loop advances the Signal Generator only
on bars processed while flat with a ready ATR; on every bar with an
open trade, or with the ATR not yet ready, the signal state (price
window included) is left untouched. -/
theorem signal_untouched_unless_flat_ready (risk slm : ℚ) (s : EngineState) (b : Bar)
    (s' : EngineState)
    (h : s.tm.active.isSome = true ∨ (s.atr.update b.o b.h b.l b.c).2 = none)
    (hrun : runBar risk slm s b = some s') : s'.signal = s.signal := by
  cases hA : s.tm.active with
  | some t =>
      rw [runBar_open_case risk slm s b t hA] at hrun
      cases hb : s.tm.on_bar b.ts b.h b.l b.c (((s.atr.update b.o b.h b.l b.c).2).getD 0) with
      | none => rw [hb] at hrun; exact absurd hrun (by simp)
      | some r =>
          cases r with
          | mk tm' done =>
              rw [hb] at hrun
              simp only [Option.some.injEq] at hrun
              subst hrun
              rfl
  | none =>
      have hatr : (s.atr.update b.o b.h b.l b.c).2 = none := by
        rcases h with hopen | hatr
        · rw [hA] at hopen
          simp at hopen
        · exact hatr
      rw [runBar_noatr_case risk slm s b hA hatr] at hrun
      cases hb : s.tm.on_bar b.ts b.h b.l b.c (((s.atr.update b.o b.h b.l b.c).2).getD 0) with
      | none => rw [hb] at hrun; exact absurd hrun (by simp)
      | some r =>
          cases r with
          | mk tm' done =>
              rw [hb] at hrun
              simp only [Option.some.injEq] at hrun
              subst hrun
              rfl

theorem signal_untouched_unless_flat_ready_witness :
    (c4s4.tm.active.isSome = true ∧ runBar 1 15 c4s4 c4b5 = some c4s5 ∧
      c4s5.signal = c4s4.signal) ∧
    ((c4warm.atr.update c4wb.o c4wb.h c4wb.l c4wb.c).2 = none ∧
      runBar 1 15 c4warm c4wb = some c4warms1 ∧
      c4warms1.signal = c4warm.signal) := by
  constructor
  · refine ⟨by with_unfolding_all decide, by with_unfolding_all rfl, ?_⟩
    exact signal_untouched_unless_flat_ready 1 15 c4s4 c4b5 c4s5
      (Or.inl (by with_unfolding_all decide)) (by with_unfolding_all rfl)
  · refine ⟨by with_unfolding_all decide, by with_unfolding_all rfl, ?_⟩
    exact signal_untouched_unless_flat_ready 1 15 c4warm c4wb c4warms1
      (Or.inr (by with_unfolding_all decide)) (by with_unfolding_all rfl)

set_option maxRecDepth 4000 in
/-- C3 counterexample: a qualifying LONG signal fires while flat at a
negative close (so the sizing guard fails and the computed size is
zero), yet a Trade IS opened — with size 0 — rather than no trade. -/
theorem zero_size_trade_opened_counterexample :
    runBars 1 15 cfgInit c3bars3 = some c3s3 ∧
    c3s3.tm.active = none ∧
    (c3s3.atr.update c3b4.o c3b4.h c3b4.l c3b4.c).2 = some 2 ∧
    (c3s3.regime.update c3b4.c).2 = Regime.UP ∧
    (c3s3.signal.on_bar c3b4.c Regime.UP).2 = some Side.LONG ∧
    c3b4.c ≤ 0 ∧
    runBar 1 15 c3s3 c3b4 = some c3s4 ∧
    c3s4.tm.active.map Trade.size = some 0 ∧
    c3s4.tm.active.isSome = true := by
  refine ⟨by with_unfolding_all rfl, ?_, ?_, ?_, ?_, ?_,
    by with_unfolding_all rfl, ?_, ?_⟩ <;> with_unfolding_all decide

/-- C3 amended: when a qualifying signal fires while flat with a ready
ATR but the sizing guard fails (non-positive stop distance or
non-positive price), the computed size is zero and a zero-size Trade is
still opened at the bar's close; no error is raised. -/
theorem entry_zero_qty_still_opens (risk slm : ℚ) (s : EngineState) (b : Bar)
    (a : ℚ) (side : Side)
    (hA : s.tm.active = none)
    (hatr : (s.atr.update b.o b.h b.l b.c).2 = some a)
    (hsig : (s.signal.on_bar b.c (s.regime.update b.c).2).2 = some side)
    (hreg : (s.regime.update b.c).2 = Regime.UP ∨ (s.regime.update b.c).2 = Regime.DOWN)
    (hqty : ¬ (a * slm > 0 ∧ b.c > 0)) :
    ∃ s' t, runBar risk slm s b = some s' ∧ s'.tm.active = some t ∧
      t.size = 0 ∧ t.entry_price = b.c ∧ t.side = side := by
  rcases hu : s.atr.update b.o b.h b.l b.c with ⟨atrSt, cur⟩
  rw [hu] at hatr
  dsimp only at hatr
  subst hatr
  rcases hr : s.regime.update b.c with ⟨regSt, reg⟩
  rw [hr] at hsig hreg
  dsimp only at hsig hreg
  rcases hg : s.signal.on_bar b.c reg with ⟨sigSt, sig⟩
  rw [hg] at hsig
  dsimp only at hsig
  subst hsig
  have hrb : runBar risk slm s b = some
      { s with atr := atrSt, regime := regSt, signal := sigSt,
               tm := (TradeManager.openTrade s.tm b.ts side b.c a 0).1,
               lastTs := some b.ts, lastClose := b.c } := by
    unfold runBar
    rw [hu, hr, hA]
    dsimp only
    rw [hg]
    dsimp only
    rw [if_pos hreg, if_neg hqty]
  exact ⟨_, _, hrb, rfl, rfl, rfl, rfl⟩

theorem entry_zero_qty_still_opens_witness :
    c3s3.tm.active = none ∧
    (∃ s' t, runBar 1 15 c3s3 c3b4 = some s' ∧ s'.tm.active = some t ∧
      t.size = 0 ∧ t.entry_price = c3b4.c ∧ t.side = Side.LONG) := by
  refine ⟨by with_unfolding_all decide, ?_⟩
  exact entry_zero_qty_still_opens 1 15 c3s3 c3b4 2 Side.LONG
    (by with_unfolding_all decide) (by with_unfolding_all decide)
    (by with_unfolding_all decide) (by with_unfolding_all decide)
    (by with_unfolding_all decide)

/-- The trailing-step block of on_bar as a pure function. -/
def tslStepped (tm : TradeManager) (t : Trade) (close atr : ℚ) : Trade :=
  if t.be_moved then
    match t.side with
    | .LONG =>
        if close ≥ t.entry_price + tm.p.tsl_step_atr_mult * atr then
          { t with tsl_active := true, sl := max t.sl (close - tm.p.tsl_step_atr_mult * atr) }
        else t
    | .SHORT =>
        if close ≤ t.entry_price - tm.p.tsl_step_atr_mult * atr then
          { t with tsl_active := true, sl := min t.sl (close + tm.p.tsl_step_atr_mult * atr) }
        else t
  else t

/-- The breakeven block of on_bar as a pure function. -/
def beStepped (tm : TradeManager) (t : Trade) (close : ℚ) : Trade :=
  if ¬ t.be_moved then
    if TradeManager.progress t close ≥ tm.p.breakeven_progress then
      { t with be_moved := true, sl := t.entry_price }
    else t
  else t

/-- Long stop-loss branch of on_bar. -/
lemma on_bar_long_sl (tm : TradeManager) (ts : Nat) (high low close atr : ℚ) (t : Trade)
    (ht : tm.active = some t) (hs : t.side = Side.LONG) (h1 : low ≤ t.sl) :
    tm.on_bar ts high low close atr =
      if |tm.p.atr_mult_sl * atr| = 0 then none
      else some ({ tm with active := none },
        some { t with exit_ts := some ts, exit_price := t.sl,
                      exit_reason := some (if t.tsl_active then ExitReason.TSL else ExitReason.SL),
                      R := (t.sl - t.entry_price) / |tm.p.atr_mult_sl * atr| }) := by
  obtain ⟨sd, ets, ep, sl, tp, sz, bm, ta, tst, exts, exp, exr, R⟩ := t
  dsimp only at hs h1 ⊢
  subst hs
  unfold TradeManager.on_bar
  rw [ht]
  dsimp only
  rw [if_pos h1]
  rfl

/-- Long take-profit branch of on_bar. -/
lemma on_bar_long_tp (tm : TradeManager) (ts : Nat) (high low close atr : ℚ) (t : Trade)
    (ht : tm.active = some t) (hs : t.side = Side.LONG) (h1 : ¬ low ≤ t.sl)
    (h2 : high ≥ t.tp) :
    tm.on_bar ts high low close atr =
      if |tm.p.atr_mult_sl * atr| = 0 then none
      else some ({ tm with active := none },
        some { t with exit_ts := some ts, exit_price := t.tp,
                      exit_reason := some ExitReason.TSL,
                      R := (t.tp - t.entry_price) / |tm.p.atr_mult_sl * atr| }) := by
  obtain ⟨sd, ets, ep, sl, tp, sz, bm, ta, tst, exts, exp, exr, R⟩ := t
  dsimp only at hs h1 h2 ⊢
  subst hs
  unfold TradeManager.on_bar
  rw [ht]
  dsimp only
  rw [if_neg h1, if_pos h2]
  rfl

/-- Short stop-loss branch of on_bar. -/
lemma on_bar_short_sl (tm : TradeManager) (ts : Nat) (high low close atr : ℚ) (t : Trade)
    (ht : tm.active = some t) (hs : t.side = Side.SHORT) (h1 : high ≥ t.sl) :
    tm.on_bar ts high low close atr =
      if |tm.p.atr_mult_sl * atr| = 0 then none
      else some ({ tm with active := none },
        some { t with exit_ts := some ts, exit_price := t.sl,
                      exit_reason := some (if t.tsl_active then ExitReason.TSL else ExitReason.SL),
                      R := (t.entry_price - t.sl) / |tm.p.atr_mult_sl * atr| }) := by
  obtain ⟨sd, ets, ep, sl, tp, sz, bm, ta, tst, exts, exp, exr, R⟩ := t
  dsimp only at hs h1 ⊢
  subst hs
  unfold TradeManager.on_bar
  rw [ht]
  dsimp only
  rw [if_pos h1]
  rfl

/-- Short take-profit branch of on_bar. -/
lemma on_bar_short_tp (tm : TradeManager) (ts : Nat) (high low close atr : ℚ) (t : Trade)
    (ht : tm.active = some t) (hs : t.side = Side.SHORT) (h1 : ¬ high ≥ t.sl)
    (h2 : low ≤ t.tp) :
    tm.on_bar ts high low close atr =
      if |tm.p.atr_mult_sl * atr| = 0 then none
      else some ({ tm with active := none },
        some { t with exit_ts := some ts, exit_price := t.tp,
                      exit_reason := some ExitReason.TSL,
                      R := (t.entry_price - t.tp) / |tm.p.atr_mult_sl * atr| }) := by
  obtain ⟨sd, ets, ep, sl, tp, sz, bm, ta, tst, exts, exp, exr, R⟩ := t
  dsimp only at hs h1 h2 ⊢
  subst hs
  unfold TradeManager.on_bar
  rw [ht]
  dsimp only
  rw [if_neg h1, if_pos h2]
  rfl

/-- No-trigger behaviour of on_bar: with a stale exit reason the trade
is closed with a recomputed R; otherwise the trailing and breakeven
blocks run. -/
lemma on_bar_no_trigger (tm : TradeManager) (ts : Nat) (high low close atr : ℚ)
    (t : Trade) (ht : tm.active = some t)
    (hno : triggersExit t high low = false) :
    tm.on_bar ts high low close atr =
      if t.exit_reason.isSome then
        (if |tm.p.atr_mult_sl * atr| = 0 then none
         else some ({ tm with active := none },
           some { t with R := (match t.side with
              | Side.LONG => t.exit_price - t.entry_price
              | Side.SHORT => t.entry_price - t.exit_price) / |tm.p.atr_mult_sl * atr| }))
      else
        some ({ tm with active := some (beStepped tm (tslStepped tm t close atr) close) },
          none) := by
  obtain ⟨sd, ets, ep, sl, tp, sz, bm, ta, tst, exts, exp, exr, R⟩ := t
  cases sd with
  | LONG =>
      simp only [triggersExit, decide_eq_false_iff_not, not_or] at hno
      obtain ⟨h1, h2⟩ := hno
      unfold TradeManager.on_bar
      rw [ht]
      dsimp only
      rw [if_neg h1, if_neg h2]
      rfl
  | SHORT =>
      simp only [triggersExit, decide_eq_false_iff_not, not_or] at hno
      obtain ⟨h1, h2⟩ := hno
      unfold TradeManager.on_bar
      rw [ht]
      dsimp only
      rw [if_neg h1, if_neg h2]
      rfl

lemma ite_close_ne_noexit {c : Prop} [Decidable c] (tm2 tm' : TradeManager) (u : Trade) :
    (if c then (none : Option (TradeManager × Option Trade))
     else some (tm2, some u)) ≠ some (tm', (none : Option Trade)) := by
  split <;> simp

lemma ite_none_iff_zero {x : ℚ} {y : TradeManager × Option Trade} :
    ((if |x| = 0 then (none : Option (TradeManager × Option Trade)) else some y) = none
      ↔ x = 0) := by
  by_cases hz : x = 0 <;> simp [hz, abs_eq_zero]

/-- C6: the exit check uses the stop/target levels as they stood
entering the bar, stop before target; a stop hit is labeled SL unless
trailing was already active (then TSL), a take-profit hit is always
labeled TSL; and the closed trade carries its sl/tp/flags unchanged —
no trailing or breakeven update happens on an exit bar. -/
theorem exit_check_levels_and_labels (tm : TradeManager) (ts : Nat)
    (high low close atr : ℚ) (t : Trade)
    (ht : tm.active = some t)
    (hne : tm.p.atr_mult_sl * atr ≠ 0) :
    (t.side = Side.LONG →
      (low ≤ t.sl →
        tm.on_bar ts high low close atr =
          some ({ tm with active := none },
            some { t with exit_ts := some ts, exit_price := t.sl,
                          exit_reason := some (if t.tsl_active then ExitReason.TSL else ExitReason.SL),
                          R := (t.sl - t.entry_price) / |tm.p.atr_mult_sl * atr| })) ∧
      (¬ low ≤ t.sl → high ≥ t.tp →
        tm.on_bar ts high low close atr =
          some ({ tm with active := none },
            some { t with exit_ts := some ts, exit_price := t.tp,
                          exit_reason := some ExitReason.TSL,
                          R := (t.tp - t.entry_price) / |tm.p.atr_mult_sl * atr| }))) ∧
    (t.side = Side.SHORT →
      (high ≥ t.sl →
        tm.on_bar ts high low close atr =
          some ({ tm with active := none },
            some { t with exit_ts := some ts, exit_price := t.sl,
                          exit_reason := some (if t.tsl_active then ExitReason.TSL else ExitReason.SL),
                          R := (t.entry_price - t.sl) / |tm.p.atr_mult_sl * atr| })) ∧
      (¬ high ≥ t.sl → low ≤ t.tp →
        tm.on_bar ts high low close atr =
          some ({ tm with active := none },
            some { t with exit_ts := some ts, exit_price := t.tp,
                          exit_reason := some ExitReason.TSL,
                          R := (t.entry_price - t.tp) / |tm.p.atr_mult_sl * atr| }))) := by
  have hz : ¬ (|tm.p.atr_mult_sl * atr| = 0) := fun hh => hne (abs_eq_zero.mp hh)
  refine ⟨fun hs => ⟨fun h1 => ?_, fun h1 h2 => ?_⟩,
          fun hs => ⟨fun h1 => ?_, fun h1 h2 => ?_⟩⟩
  · rw [on_bar_long_sl tm ts high low close atr t ht hs h1, if_neg hz]
  · rw [on_bar_long_tp tm ts high low close atr t ht hs h1 h2, if_neg hz]
  · rw [on_bar_short_sl tm ts high low close atr t ht hs h1, if_neg hz]
  · rw [on_bar_short_tp tm ts high low close atr t ht hs h1 h2, if_neg hz]

theorem exit_check_levels_and_labels_witness :
    w6tm.active = some w6trade ∧ w6tm.p.atr_mult_sl * 2 ≠ 0 ∧ (60 : ℚ) ≤ w6trade.sl ∧
    w6tm.on_bar 1 100 60 80 2 =
      some ({ w6tm with active := none },
        some { w6trade with exit_ts := some 1, exit_price := w6trade.sl,
                            exit_reason := some (if w6trade.tsl_active then ExitReason.TSL else ExitReason.SL),
                            R := (w6trade.sl - w6trade.entry_price) / |w6tm.p.atr_mult_sl * 2| }) := by
  refine ⟨rfl, by with_unfolding_all decide, by with_unfolding_all decide, ?_⟩
  exact ((exit_check_levels_and_labels w6tm 1 100 60 80 2 w6trade rfl
    (by with_unfolding_all decide)).1 rfl).1 (by with_unfolding_all decide)

lemma beStepped_of_be_moved (tm : TradeManager) (t : Trade) (close : ℚ)
    (hb : t.be_moved = true) : beStepped tm t close = t := by
  unfold beStepped
  rw [hb]
  simp

lemma tslStepped_be_moved (tm : TradeManager) (t : Trade) (close atr : ℚ) :
    (tslStepped tm t close atr).be_moved = t.be_moved := by
  unfold tslStepped
  repeat' split
  all_goals rfl

lemma tslStepped_sl_long (tm : TradeManager) (t : Trade) (close atr : ℚ)
    (hs : t.side = Side.LONG) : t.sl ≤ (tslStepped tm t close atr).sl := by
  unfold tslStepped
  rw [hs]
  split
  · dsimp only
    split
    · exact le_max_left _ _
    · exact le_refl _
  · exact le_refl _

lemma tslStepped_sl_short (tm : TradeManager) (t : Trade) (close atr : ℚ)
    (hs : t.side = Side.SHORT) : (tslStepped tm t close atr).sl ≤ t.sl := by
  unfold tslStepped
  rw [hs]
  split
  · dsimp only
    split
    · exact min_le_left _ _
    · exact le_refl _
  · exact le_refl _

/-- C7: once be_moved is set, an on_bar call that does not close the
trade never loosens the stop: non-decreasing for LONG, non-increasing
for SHORT. -/
theorem be_moved_stop_monotone (tm : TradeManager) (ts : Nat)
    (high low close atr : ℚ) (t : Trade) (tm' : TradeManager) (t' : Trade)
    (ht : tm.active = some t) (hb : t.be_moved = true)
    (hrun : tm.on_bar ts high low close atr = some (tm', none))
    (ha : tm'.active = some t') :
    (t.side = Side.LONG → t.sl ≤ t'.sl) ∧ (t.side = Side.SHORT → t'.sl ≤ t.sl) := by
  have main : ∀ hno : triggersExit t high low = false,
      (t.side = Side.LONG → t.sl ≤ t'.sl) ∧ (t.side = Side.SHORT → t'.sl ≤ t.sl) := by
    intro hno
    rw [on_bar_no_trigger tm ts high low close atr t ht hno] at hrun
    cases hexr : t.exit_reason with
    | some r =>
        rw [hexr] at hrun
        simp only [Option.isSome_some, if_true] at hrun
        exact absurd hrun (ite_close_ne_noexit _ _ _)
    | none =>
        rw [hexr] at hrun
        simp only [Option.isSome_none, Bool.false_eq_true, if_false,
          Option.some.injEq, Prod.mk.injEq] at hrun
        obtain ⟨htm', -⟩ := hrun
        rw [← htm'] at ha
        simp only [Option.some.injEq] at ha
        subst ha
        constructor
        · intro hs
          rw [beStepped_of_be_moved _ _ _ (by rw [tslStepped_be_moved]; exact hb)]
          exact tslStepped_sl_long tm t close atr hs
        · intro hs
          rw [beStepped_of_be_moved _ _ _ (by rw [tslStepped_be_moved]; exact hb)]
          exact tslStepped_sl_short tm t close atr hs
  by_cases hs : t.side = Side.LONG
  case pos =>
    by_cases h1 : low ≤ t.sl
    case pos =>
      rw [on_bar_long_sl tm ts high low close atr t ht hs h1] at hrun
      exact absurd hrun (ite_close_ne_noexit _ _ _)
    case neg =>
      by_cases h2 : high ≥ t.tp
      case pos =>
        rw [on_bar_long_tp tm ts high low close atr t ht hs h1 h2] at hrun
        exact absurd hrun (ite_close_ne_noexit _ _ _)
      case neg =>
        exact main (by simp [triggersExit, hs, h1, h2])
  case neg =>
    have hs2 : t.side = Side.SHORT := by
      cases hcase : t.side
      · exact absurd hcase hs
      · rfl
    by_cases h1 : high ≥ t.sl
    case pos =>
      rw [on_bar_short_sl tm ts high low close atr t ht hs2 h1] at hrun
      exact absurd hrun (ite_close_ne_noexit _ _ _)
    case neg =>
      by_cases h2 : low ≤ t.tp
      case pos =>
        rw [on_bar_short_tp tm ts high low close atr t ht hs2 h1 h2] at hrun
        exact absurd hrun (ite_close_ne_noexit _ _ _)
      case neg =>
        exact main (by simp [triggersExit, hs2, h1, h2])

theorem be_moved_stop_monotone_witness :
    w7trade.be_moved = true ∧
    w7tm.on_bar 1 130 120 125 2 = some (w7res.1, none) ∧
    w7res.1.active = some w7t ∧
    w7trade.sl ≤ w7t.sl := by
  refine ⟨rfl, by with_unfolding_all rfl, by with_unfolding_all rfl, ?_⟩
  exact (be_moved_stop_monotone w7tm 1 130 120 125 2 w7trade w7res.1 w7t rfl rfl
    (by with_unfolding_all rfl) (by with_unfolding_all rfl)).1 rfl

/-- C10: on an exit-triggering bar the R-multiple divides the signed
P&L by |atr_mult_sl * atr| with no zero guard: the call is well-defined
(returns a closed trade) exactly when atr_mult_sl * atr is nonzero, and
raises ZeroDivisionError (modelled as none) exactly when it is zero. -/
theorem r_multiple_zero_divisor (tm : TradeManager) (ts : Nat)
    (high low close atr : ℚ) (t : Trade)
    (ht : tm.active = some t) (htr : triggersExit t high low = true) :
    (tm.on_bar ts high low close atr = none ↔ tm.p.atr_mult_sl * atr = 0) ∧
    (tm.p.atr_mult_sl * atr ≠ 0 →
      ∃ tm' t', tm.on_bar ts high low close atr = some (tm', some t') ∧
        t'.R = (match t.side with
                | Side.LONG => t'.exit_price - t.entry_price
                | Side.SHORT => t.entry_price - t'.exit_price) / |tm.p.atr_mult_sl * atr|) := by
  by_cases hs : t.side = Side.LONG
  case pos =>
    by_cases h1 : low ≤ t.sl
    case pos =>
      rw [on_bar_long_sl tm ts high low close atr t ht hs h1]
      refine ⟨ite_none_iff_zero, fun hne => ?_⟩
      rw [if_neg (fun hh => hne (abs_eq_zero.mp hh))]
      exact ⟨_, _, rfl, by simp [hs]⟩
    case neg =>
      have h2 : high ≥ t.tp := by
        simp only [triggersExit, hs, decide_eq_true_eq] at htr
        exact htr.resolve_left h1
      rw [on_bar_long_tp tm ts high low close atr t ht hs h1 h2]
      refine ⟨ite_none_iff_zero, fun hne => ?_⟩
      rw [if_neg (fun hh => hne (abs_eq_zero.mp hh))]
      exact ⟨_, _, rfl, by simp [hs]⟩
  case neg =>
    have hs2 : t.side = Side.SHORT := by
      cases hcase : t.side
      · exact absurd hcase hs
      · rfl
    by_cases h1 : high ≥ t.sl
    case pos =>
      rw [on_bar_short_sl tm ts high low close atr t ht hs2 h1]
      refine ⟨ite_none_iff_zero, fun hne => ?_⟩
      rw [if_neg (fun hh => hne (abs_eq_zero.mp hh))]
      exact ⟨_, _, rfl, by simp [hs2]⟩
    case neg =>
      have h2 : low ≤ t.tp := by
        simp only [triggersExit, hs2, decide_eq_true_eq] at htr
        exact htr.resolve_left h1
      rw [on_bar_short_tp tm ts high low close atr t ht hs2 h1 h2]
      refine ⟨ite_none_iff_zero, fun hne => ?_⟩
      rw [if_neg (fun hh => hne (abs_eq_zero.mp hh))]
      exact ⟨_, _, rfl, by simp [hs2]⟩

theorem r_multiple_zero_divisor_witness :
    w10tm.active = some w10trade ∧ triggersExit w10trade 100 60 = true ∧
    w10tm.on_bar 1 100 60 80 0 = none := by
  refine ⟨rfl, by with_unfolding_all decide, ?_⟩
  exact (r_multiple_zero_divisor w10tm 1 100 60 80 0 w10trade rfl
    (by with_unfolding_all decide)).1.mpr (by with_unfolding_all decide)

lemma trListFrom_concat (b : Bar) : ∀ (bars : List Bar) (pc : Option ℚ),
    trListFrom pc (bars ++ [b]) =
      trListFrom pc bars ++ [trOf (lastCloseFrom pc bars) b.h b.l]
  | [], pc => rfl
  | a :: bs, pc => by
      show trOf pc a.h a.l :: trListFrom (some a.c) (bs ++ [b]) =
        (trOf pc a.h a.l :: trListFrom (some a.c) bs) ++
          [trOf (lastCloseFrom (some a.c) bs) b.h b.l]
      rw [List.cons_append]
      exact congrArg (List.cons (trOf pc a.h a.l)) (trListFrom_concat b bs (some a.c))

lemma lastCloseFrom_concat (b : Bar) : ∀ (bars : List Bar) (pc : Option ℚ),
    lastCloseFrom pc (bars ++ [b]) = some b.c
  | [], pc => rfl
  | a :: bs, pc => by
      rw [List.cons_append]
      exact lastCloseFrom_concat b bs (some a.c)

lemma trListFrom_length : ∀ (bars : List Bar) (pc : Option ℚ),
    (trListFrom pc bars).length = bars.length
  | [], _ => rfl
  | a :: bs, pc => by
      simp only [trListFrom, List.length_cons, trListFrom_length bs (some a.c)]

lemma ATRState.runBars_concat (s : ATRState) (bars : List Bar) (b : Bar) :
    ATRState.runBars s (bars ++ [b]) =
      ((ATRState.runBars s bars).update b.o b.h b.l b.c).1 := by
  unfold ATRState.runBars
  rw [List.foldl_concat]

/-- Full characterization of the ATR state after any bar sequence. -/
lemma atr_run_char (P : Nat) (hP : 0 < P) (bars : List Bar) :
    ATRState.runBars (ATRState.init P) bars =
      { period := P, trs := (trList bars).take P,
        prev_close := lastCloseFrom none bars,
        atr := wilderSpec P (trList bars) } := by
  induction bars using List.reverseRecOn with
  | nil =>
      simp [ATRState.runBars, ATRState.init, trList, trListFrom, lastCloseFrom,
        wilderSpec, hP]
  | append_singleton bs b ih =>
      rw [ATRState.runBars_concat, ih]
      unfold trList at *
      rw [trListFrom_concat b bs none, lastCloseFrom_concat b bs none]
      set L := trListFrom none bs with hL
      set tr := trOf (lastCloseFrom none bs) b.h b.l with htr
      unfold ATRState.update
      by_cases hlt : L.length < P
      case pos =>
        have hwnone : wilderSpec P L = none := by unfold wilderSpec; rw [if_pos hlt]
        rw [hwnone]
        dsimp only
        have htake : L.take P = L := List.take_of_length_le (Nat.le_of_lt hlt)
        rw [htake]
        by_cases heq : (L ++ [tr]).length = P
        case pos =>
          rw [if_pos heq]
          have hnl : ¬ (L ++ [tr]).length < P := by omega
          unfold wilderSpec
          rw [if_neg hnl]
          have hdrop : (L ++ [tr]).drop P = [] := by
            apply List.drop_eq_nil_of_le
            omega
          have htk : (L ++ [tr]).take P = L ++ [tr] := by
            apply List.take_of_length_le
            omega
          rw [hdrop, htk]
          rfl
        case neg =>
          rw [if_neg heq]
          have hlt2 : (L ++ [tr]).length < P := by
            simp only [List.length_append, List.length_singleton] at heq ⊢
            omega
          unfold wilderSpec
          rw [if_pos hlt2, List.take_of_length_le (Nat.le_of_lt hlt2)]
      case neg =>
        have hge : P ≤ L.length := Nat.le_of_not_lt hlt
        have hwsome : wilderSpec P L =
            some ((L.drop P).foldl (fun a tr => (a * ((P : ℚ) - 1) + tr) / (P : ℚ))
              ((L.take P).sum / (P : ℚ))) := by
          unfold wilderSpec
          rw [if_neg hlt]
        rw [hwsome]
        dsimp only
        have hnl : ¬ (L ++ [tr]).length < P := by
          simp only [List.length_append, List.length_singleton]
          omega
        unfold wilderSpec
        rw [if_neg hnl]
        rw [List.take_append_of_le_length hge, List.drop_append_of_le_length hge,
          List.foldl_concat]

def watrBars : List Bar :=
  [{ ts := 0, o := 10, h := 12, l := 9, c := 11 },
   { ts := 60, o := 11, h := 14, l := 10, c := 13 },
   { ts := 120, o := 13, h := 13, l := 12, c := 12 }]

/-- C5: for period P > 0 the ATR value is "not ready" for the first P-1
bars, equals the arithmetic mean of the first P true ranges on bar P,
and follows Wilder's recursion (atr*(P-1) + tr)/P afterwards — all
encoded by wilderSpec over the true-range list, where the true range is
high-low on the first bar and max(high-low, |high-prev_close|,
|low-prev_close|) afterwards; update returns exactly the stored value. -/
theorem atr_warmup_mean_and_wilder (P : Nat) (hP : 0 < P) :
    (∀ bars : List Bar, (trList bars).length = bars.length) ∧
    (∀ bars : List Bar,
      (ATRState.runBars (ATRState.init P) bars).atr = wilderSpec P (trList bars)) ∧
    (∀ (s : ATRState) (o h l c : ℚ), (s.update o h l c).2 = (s.update o h l c).1.atr) ∧
    (∀ (s : ATRState) (o h l c a : ℚ), s.period = P → s.atr = some a →
      (s.update o h l c).2 =
        some ((a * ((P : ℚ) - 1) + trOf s.prev_close h l) / (P : ℚ))) ∧
    (∀ (h l : ℚ), trOf none h l = h - l) ∧
    (∀ (pc h l : ℚ), trOf (some pc) h l = max (h - l) (max |h - pc| |l - pc|)) := by
  refine ⟨fun bars => trListFrom_length bars none, fun bars => ?_, ?_, ?_,
    fun h l => rfl, fun pc h l => rfl⟩
  · rw [atr_run_char P hP bars]
  · intro s o h l c
    unfold ATRState.update
    cases s.atr with
    | none =>
        dsimp only
        split <;> rfl
    | some a => rfl
  · intro s o h l c a hp hatr
    unfold ATRState.update
    rw [hatr, hp]

theorem atr_warmup_mean_and_wilder_witness :
    0 < 2 ∧
    (ATRState.runBars (ATRState.init 2) watrBars).atr = wilderSpec 2 (trList watrBars) ∧
    (ATRState.runBars (ATRState.init 2) watrBars).atr = some (9/4) := by
  refine ⟨by decide, (atr_warmup_mean_and_wilder 2 (by decide)).2.1 watrBars, ?_⟩
  with_unfolding_all decide

lemma runBar_last (risk slm : ℚ) (s : EngineState) (b : Bar) (s' : EngineState)
    (h : runBar risk slm s b = some s') :
    s'.lastTs = some b.ts ∧ s'.lastClose = b.c := by
  unfold runBar at h
  repeat' split at h
  all_goals
    first
      | exact Option.noConfusion h
      | (injection h with h2; subst h2; exact ⟨rfl, rfl⟩)

lemma runBars_last (risk slm : ℚ) : ∀ (bars : List Bar) (s s' : EngineState) (b : Bar),
    runBars risk slm s bars = some s' → bars.getLast? = some b →
    s'.lastTs = some b.ts ∧ s'.lastClose = b.c
  | [], s, s', b => by
      intro _ hg
      cases hg
  | [x], s, s', b => by
      intro hrun hg
      simp only [List.getLast?_singleton, Option.some.injEq] at hg
      subst hg
      unfold runBars at hrun
      cases hrb : runBar risk slm s x with
      | none => rw [hrb] at hrun; cases hrun
      | some s1 =>
          rw [hrb] at hrun
          simp only [runBars, Option.some.injEq] at hrun
          subst hrun
          exact runBar_last risk slm s x _ hrb
  | x :: y :: rest, s, s', b => by
      intro hrun hg
      unfold runBars at hrun
      cases hrb : runBar risk slm s x with
      | none => rw [hrb] at hrun; cases hrun
      | some s1 =>
          rw [hrb] at hrun
          refine runBars_last risk slm (y :: rest) s1 s' b hrun ?_
          rw [List.getLast?_cons_cons] at hg
          exact hg

/-- The trade record emitted by the forced close. -/
def forceCloseTrade (t : Trade) (lastTs : Option Nat) (lastClose : ℚ) : Trade :=
  { t with exit_ts := lastTs, exit_price := lastClose,
           exit_reason := some ExitReason.BE, R := 0 }

/-- The state produced by the forced close when a trade is open. -/
def forceClosedState (s : EngineState) (t : Trade) : EngineState :=
  { s with trades := s.trades ++ [forceCloseTrade t s.lastTs s.lastClose],
           tm := { s.tm with active := none } }

/-- C9: if the bar stream ends with a Trade still open, run_symbol
emits it force-closed at the last seen timestamp and close (tracked by
the loop) with exit_reason BE and R = 0; the loop's last-seen close is
the close of the stream's last bar.  The spec scenario (LONG entry 100,
last close 105 ⇒ exit 105, BE, R = 0) is reproduced by the engine. -/
theorem forced_close_policy :
    (∀ (risk slm : ℚ) (s0 : EngineState) (bars : List Bar) (s' : EngineState) (t : Trade),
      runBars risk slm s0 bars = some s' → s'.tm.active = some t →
      runSymbol risk slm s0 bars = some (forceClosedState s' t) ∧
      (forceCloseTrade t s'.lastTs s'.lastClose).exit_price = s'.lastClose ∧
      (forceCloseTrade t s'.lastTs s'.lastClose).exit_reason = some ExitReason.BE ∧
      (forceCloseTrade t s'.lastTs s'.lastClose).R = 0) ∧
    (∀ (risk slm : ℚ) (s0 : EngineState) (bars : List Bar) (s' : EngineState) (b : Bar),
      runBars risk slm s0 bars = some s' → bars.getLast? = some b →
      s'.lastTs = some b.ts ∧ s'.lastClose = b.c) ∧
    (runSymbol 1 15 cfgInit c9bars = some c9sym ∧
      c9sym.trades.map (fun t => (t.entry_price, t.exit_price, t.exit_reason, t.R)) =
        [(100, 105, some ExitReason.BE, 0)] ∧
      c9sym.trades.map Trade.side = [Side.LONG]) := by
  refine ⟨?_, ?_, by with_unfolding_all rfl, by with_unfolding_all decide,
    by with_unfolding_all decide⟩
  · intro risk slm s0 bars s' t hrun ht
    refine ⟨?_, rfl, rfl, rfl⟩
    unfold runSymbol
    rw [hrun]
    dsimp only
    unfold forcedClose forceClosedState forceCloseTrade
    rw [ht]
  · intro risk slm s0 bars s' b hrun hg
    exact runBars_last risk slm bars s0 s' b hrun hg

theorem forced_close_policy_witness :
    runBars 1 15 cfgInit c9bars = some c9loopEnd ∧
    c9loopEnd.tm.active = some c9openTrade ∧
    runSymbol 1 15 cfgInit c9bars = some (forceClosedState c9loopEnd c9openTrade) ∧
    c9loopEnd.lastClose = 105 := by
  have h1 : runBars 1 15 cfgInit c9bars = some c9loopEnd := by with_unfolding_all rfl
  have h2 : c9loopEnd.tm.active = some c9openTrade := by with_unfolding_all rfl
  refine ⟨h1, h2,
    (forced_close_policy.1 1 15 cfgInit c9bars c9loopEnd c9openTrade h1 h2).1, ?_⟩
  exact (forced_close_policy.2.1 1 15 cfgInit c9bars c9loopEnd (flatBar 240 105) h1 rfl).2

lemma ite_gt_max (x y : ℚ) : (if y > x then y else x) = max x y := by
  rcases le_or_lt y x with hc | hc
  · rw [if_neg (not_lt.mpr hc), max_eq_left hc]
  · rw [if_pos hc, max_eq_right (le_of_lt hc)]

lemma ite_lt_min (x y : ℚ) : (if y < x then y else x) = min x y := by
  rcases le_or_lt x y with hc | hc
  · rw [if_neg (not_lt.mpr hc), min_eq_left hc]
  · rw [if_pos hc, min_eq_right (le_of_lt hc)]

/-- Skipping invalid rows inline is the same as filtering first. -/
lemma aggRows_eq_aggVal : ∀ (rows : List TickRow) (acc : Option TickAcc),
    aggRows rows acc = aggVal (validTicks rows) acc
  | [], none => rfl
  | [], some _ => rfl
  | r :: rs, acc => by
      unfold aggRows validTicks
      cases r.ts? with
      | none => exact aggRows_eq_aggVal rs acc
      | some ep =>
          cases r.price? with
          | none => exact aggRows_eq_aggVal rs acc
          | some p =>
              dsimp only
              cases acc with
              | none => exact aggRows_eq_aggVal rs _
              | some a =>
                  dsimp only
                  by_cases hb : ({ ts := ep, price := p, qty := r.qty?.getD 0 : Tick}).bucket ≠ a.cur_min
                  · rw [if_pos hb]
                    show _ = aggVal (_ :: validTicks rs) (some a)
                    unfold aggVal
                    rw [if_pos hb]
                    exact congrArg (List.cons a.toBar) (aggRows_eq_aggVal rs _)
                  · rw [if_neg hb]
                    show _ = aggVal (_ :: validTicks rs) (some a)
                    unfold aggVal
                    rw [if_neg hb]
                    exact aggRows_eq_aggVal rs _

/-- Processing with a live accumulator: the current same-bucket run is
absorbed into it, one bar is emitted, and processing restarts on the
remainder. -/
lemma aggVal_some : ∀ (ts : List Tick) (a : TickAcc) (m : Nat), a.cur_min = m →
    aggVal ts (some a) =
      ((ts.takeWhile (fun x => x.bucket == m)).foldl TickAcc.absorb a).toBar ::
        aggVal (ts.dropWhile (fun x => x.bucket == m)) none
  | [], a, m, hm => rfl
  | t :: ts, a, m, hm => by
      rw [List.takeWhile_cons, List.dropWhile_cons]
      by_cases hq : t.bucket = m
      · have hcond : ¬ t.bucket ≠ a.cur_min := by rw [hm]; exact not_not_intro hq
        have hpt : (t.bucket == m) = true := beq_iff_eq.mpr hq
        show (if t.bucket ≠ a.cur_min then
            a.toBar :: aggVal ts (some (TickAcc.ofTick t))
          else aggVal ts (some (a.absorb t))) = _
        rw [if_neg hcond, hpt]
        simp only [if_true, List.foldl_cons]
        exact aggVal_some ts (a.absorb t) m hm
      · have hcond : t.bucket ≠ a.cur_min := by rw [hm]; exact hq
        have hpt : (t.bucket == m) = false := by
          simp only [beq_eq_false_iff_ne, ne_eq]
          exact hq
        show (if t.bucket ≠ a.cur_min then
            a.toBar :: aggVal ts (some (TickAcc.ofTick t))
          else aggVal ts (some (a.absorb t))) = _
        rw [if_pos hcond, hpt]
        simp only [Bool.false_eq_true, if_false, List.foldl_nil]
        rfl

/-- Folding absorb over a run computes max/min/last/sum fields. -/
lemma foldl_absorb_toBar : ∀ (run : List Tick) (a : TickAcc),
    (run.foldl TickAcc.absorb a).toBar =
      { ts := a.cur_min, o := a.o,
        h := (run.map Tick.price).foldl max a.h,
        l := (run.map Tick.price).foldl min a.l,
        c := (run.map Tick.price).foldl (fun _ x => x) a.c,
        v := a.vol + (run.map Tick.qty).sum }
  | [], a => by
      simp only [List.foldl_nil, List.map_nil, List.sum_nil, add_zero]
      rfl
  | t :: run, a => by
      simp only [List.foldl_cons, List.map_cons, List.sum_cons]
      rw [foldl_absorb_toBar run (a.absorb t)]
      unfold TickAcc.absorb
      dsimp only
      rw [ite_gt_max, ite_lt_min, add_assoc]

/-- The left-to-right accumulator loop equals the run-based grouping. -/
lemma aggVal_none_eq_specAgg : ∀ (n : Nat) (ticks : List Tick), ticks.length ≤ n →
    aggVal ticks none = specAgg ticks
  | _, [], _ => by
      rw [specAgg]
      rfl
  | 0, t :: ts, hlen => by
      exact absurd hlen (by simp)
  | n + 1, t :: ts, hlen => by
      rw [specAgg]
      show aggVal ts (some (TickAcc.ofTick t)) = _
      rw [aggVal_some ts (TickAcc.ofTick t) t.bucket rfl]
      rw [foldl_absorb_toBar]
      have hrest : (ts.dropWhile (fun x => x.bucket == t.bucket)).length ≤ n := by
        have h1 := (List.dropWhile_sublist (l := ts)
          (fun x => x.bucket == t.bucket)).length_le
        have h2 : ts.length ≤ n := by
          simpa using Nat.le_of_succ_le_succ hlen
        omega
      rw [aggVal_none_eq_specAgg n _ hrest]
      rfl

set_option maxRecDepth 1600 in
/-- C8: tick aggregation groups rows into runs of equal floored minute
bucket — open = first price, high = max, low = min, close = last price,
volume = sum, a bar emitted on each bucket change and the final
in-progress bucket at end of file — and the spec's concrete scenario
(10:00:05 p=100 q=1, 10:00:30 p=102 q=2, 10:01:10 p=101 q=1) yields
exactly the bars [10:00] O=100 H=102 L=100 C=102 V=3 and
[10:01] O=101 H=101 L=101 C=101 V=1. -/
theorem tick_aggregation_groups_by_minute :
    (∀ rows : List TickRow, aggTicks rows = specAgg (validTicks rows)) ∧
    aggTicks c8rows =
      [{ ts := 36000, o := 100, h := 102, l := 100, c := 102, v := 3 },
       { ts := 36060, o := 101, h := 101, l := 101, c := 101, v := 1 }] := by
  constructor
  · intro rows
    unfold aggTicks
    rw [aggRows_eq_aggVal rows none]
    exact aggVal_none_eq_specAgg (validTicks rows).length _ (le_refl _)
  · with_unfolding_all rfl
